import Mathlib

/-!
Verification of the CareerLens AI content-generation backend
(`src/actions/dashboard.js`, `src/actions/interview.js`,
`src/actions/cover-letter.js`).

Conventions of the embedding:
* Timestamps are natural numbers (milliseconds since the epoch).
* JavaScript strings are Lean `String`s; the generation provider and the
  record store are passed in explicitly (as `Except`-valued arguments and
  as lists of records).
* A thrown JavaScript `Error` is an `Except.error` carrying the message.
-/

deriving instance DecidableEq for Except

namespace CareerLens

/-- `CACHE_DURATION_DAYS * 24 * 60 * 60 * 1000` (dashboard.js line 8). -/
def CACHE_DURATION_MS : Nat := 7 * 24 * 60 * 60 * 1000

/-- One hour in milliseconds (`60 * 60 * 1000`, dashboard.js line 551). -/
def HOUR_MS : Nat := 60 * 60 * 1000

/-- The whitespace characters relevant to `.trim()` on the strings this
system handles. -/
def isWsChar (c : Char) : Bool :=
  c = ' ' || c = '\t' || c = '\n' || c = '\r'

/-- Drop whitespace from both ends of a character list. -/
def trimWs (l : List Char) : List Char :=
  ((l.dropWhile isWsChar).reverse.dropWhile isWsChar).reverse

/-- JavaScript `.trim()`, modelled on the string's character list. -/
def jsTrim (s : String) : String := String.mk (trimWs s.data)

/-- JavaScript `.toLowerCase()`, modelled on the string's character
list. -/
def jsToLower (s : String) : String := String.mk (s.data.map Char.toLower)

/-! ## Retry executor (dashboard.js `callGeminiWithRetry`, lines 356-383,
and the cron job's `generateWithRetry`, lines 720-757).

Both functions run the same loop
`for (attempt = 0; attempt <= maxRetries; attempt++)` differing only in
the base backoff delay and the final error text.  `retryAux` models one
iteration at index `attempt` with `remaining = maxRetries - attempt`
iterations left after it.  Along with the result it returns the number of
calls made to the attempt function and the list of backoff delays slept
(in milliseconds, in order); the source sleeps `baseDelay * (attempt + 1)`
when `attempt < maxRetries`. -/

def retryAux (attemptFn : Nat → Except String α) (baseDelay : Nat)
    (wrap : String → String) (attempt : Nat) :
    Nat → Except String α × Nat × List Nat
  | 0 =>
    match attemptFn attempt with
    | .ok a => (.ok a, 1, [])
    | .error e => (.error (wrap e), 1, [])
  | remaining + 1 =>
    match attemptFn attempt with
    | .ok a => (.ok a, 1, [])
    | .error _ =>
      let out := retryAux attemptFn baseDelay wrap (attempt + 1) remaining
      (out.1, out.2.1 + 1, baseDelay * (attempt + 1) :: out.2.2)

/-- `callGeminiWithRetry(prompt, maxRetries = 2)` (dashboard.js 356-383):
base delay 1000 ms, final error
`AI service unavailable after N attempts: last-message`. -/
def callGeminiWithRetry (attemptFn : Nat → Except String α)
    (maxRetries : Nat := 2) : Except String α × Nat × List Nat :=
  retryAux attemptFn 1000
    (fun m => "AI service unavailable after " ++ toString (maxRetries + 1)
      ++ " attempts: " ++ m) 0 maxRetries

/-- `MAX_RETRIES = 2` of the cron job (dashboard.js line 683). -/
def MAX_RETRIES : Nat := 2

/-- The cron job's `generateWithRetry` (dashboard.js 720-757): base delay
2000 ms, `MAX_RETRIES = 2`, final error `Failed after N attempts: ...`.
The attempt function covers generation, sanitization, parsing and
validation of one attempt, exactly as the source's loop body does. -/
def generateWithRetry (attemptFn : Nat → Except String α) :
    Except String α × Nat × List Nat :=
  retryAux attemptFn 2000
    (fun m => "Failed after " ++ toString (MAX_RETRIES + 1)
      ++ " attempts: " ++ m) 0 MAX_RETRIES

theorem retryAux_allFail (attemptFn : Nat → Except String α)
    (e : Nat → String) (h : ∀ i, attemptFn i = .error (e i))
    (baseDelay : Nat) (wrap : String → String) :
    ∀ remaining attempt,
      retryAux attemptFn baseDelay wrap attempt remaining =
        (.error (wrap (e (attempt + remaining))), remaining + 1,
          (List.range remaining).map (fun k => baseDelay * (attempt + k + 1))) := by
  intro remaining
  induction remaining with
  | zero => intro attempt; simp [retryAux, h attempt]
  | succ r ih =>
    intro attempt
    have h1 : attempt + 1 + r = attempt + (r + 1) := by omega
    have h2 : (List.range (r + 1)).map (fun k => baseDelay * (attempt + k + 1)) =
        baseDelay * (attempt + 1) ::
          (List.range r).map (fun k => baseDelay * (attempt + 1 + k + 1)) := by
      rw [List.range_succ_eq_map]
      simp only [List.map_cons, List.map_map, List.cons.injEq]
      refine ⟨by ring, ?_⟩
      apply List.map_congr_left
      intro k _
      simp only [Function.comp_apply, Nat.succ_eq_add_one]
      ring
    simp only [retryAux, h attempt, ih (attempt + 1), h1, h2]

theorem retryAux_firstOk (attemptFn : Nat → Except String α) (v : α)
    (baseDelay attempt : Nat) (wrap : String → String)
    (h : attemptFn attempt = .ok v) :
    ∀ remaining, retryAux attemptFn baseDelay wrap attempt remaining = (.ok v, 1, []) := by
  intro remaining
  cases remaining <;> simp [retryAux, h]

/-! ## Quiz validator (interview.js `validateQuizResponse`, lines 22-50). -/

structure QuizQuestion where
  question : String
  options : List String
  correctAnswer : String
  explanation : String
deriving DecidableEq

structure Quiz where
  questions : List QuizQuestion
deriving DecidableEq

/-- The per-question checks of the `for (const [index, q] of
quiz.questions.entries())` loop body (interview.js 31-47), in source
order.  JavaScript truthiness makes `!q.question` reject the empty
string, and likewise for `correctAnswer` and `explanation`. -/
def checkQuestion (i : Nat) (q : QuizQuestion) : Except String Unit :=
  if q.question = "" then
    .error ("Question " ++ toString (i + 1) ++ ": " ++ "missing or invalid question text")
  else if q.options.length ≠ 4 then
    .error ("Question " ++ toString (i + 1) ++ ": " ++ "must have exactly 4 options")
  else if q.correctAnswer = "" ∨ q.correctAnswer ∉ q.options then
    .error ("Question " ++ toString (i + 1) ++ ": " ++ "correctAnswer must be one of the options")
  else if q.explanation = "" then
    .error ("Question " ++ toString (i + 1) ++ ": " ++ "missing or invalid explanation")
  else
    .ok ()

def validateQuizQuestions : Nat → List QuizQuestion → Except String Unit
  | _, [] => .ok ()
  | i, q :: rest =>
    match checkQuestion i q with
    | .ok _ => validateQuizQuestions (i + 1) rest
    | .error m => .error m

/-- `validateQuizResponse` (interview.js 22-50).  The dynamic
`!quiz || !Array.isArray(quiz.questions)` guard is discharged by typing. -/
def validateQuizResponse (quiz : Quiz) : Except String Unit :=
  if quiz.questions.length ≠ 10 then
    .error ("Invalid quiz format: expected 10 questions, got "
      ++ toString quiz.questions.length)
  else
    validateQuizQuestions 0 quiz.questions

/-- The exact conditions under which `checkQuestion` succeeds. -/
def questionOk (q : QuizQuestion) : Prop :=
  q.question ≠ "" ∧ q.options.length = 4 ∧ q.correctAnswer ≠ "" ∧
    q.correctAnswer ∈ q.options ∧ q.explanation ≠ ""

instance (q : QuizQuestion) : Decidable (questionOk q) := by
  unfold questionOk; infer_instance

theorem checkQuestion_ok_iff (i : Nat) (q : QuizQuestion) :
    checkQuestion i q = .ok () ↔ questionOk q := by
  unfold checkQuestion questionOk
  split_ifs with h1 h2 h3 h4 <;> simp_all <;> tauto

theorem validateQuizQuestions_ok_iff (qs : List QuizQuestion) :
    ∀ i, validateQuizQuestions i qs = .ok () ↔ ∀ q ∈ qs, questionOk q := by
  induction qs with
  | nil => intro i; simp [validateQuizQuestions]
  | cons q rest ih =>
    intro i
    unfold validateQuizQuestions
    cases h : checkQuestion i q with
    | ok u =>
      cases u
      have hq : questionOk q := (checkQuestion_ok_iff i q).mp h
      simp [ih (i + 1), hq]
    | error m =>
      have hq : ¬ questionOk q := by
        intro hc
        rw [(checkQuestion_ok_iff i q).mpr hc] at h
        exact Except.noConfusion h
      simp [hq]

theorem validateQuizQuestions_error (qs : List QuizQuestion) :
    ∀ i m, validateQuizQuestions i qs = .error m →
      ∃ j q, qs[j]? = some q ∧ checkQuestion (i + j) q = .error m ∧ ¬ questionOk q := by
  induction qs with
  | nil => intro i m h; simp [validateQuizQuestions] at h
  | cons q rest ih =>
    intro i m h
    unfold validateQuizQuestions at h
    cases hc : checkQuestion i q with
    | ok u =>
      cases u
      rw [hc] at h
      obtain ⟨j, q2, hj, hcj, hbad⟩ := ih (i + 1) m h
      exact ⟨j + 1, q2, by simpa using hj, by rw [Nat.add_comm j 1, ← Nat.add_assoc]; exact hcj, hbad⟩
    | error m2 =>
      rw [hc] at h
      cases h
      refine ⟨0, q, by simp, by simpa using hc, ?_⟩
      intro hok
      rw [(checkQuestion_ok_iff i q).mpr hok] at hc
      exact Except.noConfusion hc

/-! ## Industry-insight validators (dashboard.js `validateInsightsResponse`,
lines 23-57, and the cron job's `validateInsights`, lines 685-718).

The parsed JSON object is modelled with one `Option` per field so that the
source's `field in data` presence checks are meaningful; `none` means the
field is absent.  Field values that the source never inspects
(`growthRate`, `keyTrends`, `recommendedSkills`, the salary-range entries)
are carried but unused. -/

structure SalaryRange where
  role : String
  low : Int
  high : Int
  median : Int
  location : String
deriving DecidableEq

structure InsightsData where
  salaryRanges : Option (List SalaryRange)
  growthRate : Option Int
  demandLevel : Option String
  topSkills : Option (List String)
  marketOutlook : Option String
  keyTrends : Option (List String)
  recommendedSkills : Option (List String)
deriving DecidableEq

/-- `field in data`: succeed with the value when present, fail with the
given message when absent. -/
def requireField (o : Option β) (msg : String) : Except String β :=
  match o with
  | some v => .ok v
  | none => .error msg

/-- `validateInsightsResponse` (dashboard.js 23-57): the `requiredFields`
presence loop unrolled in its order, then the array-length and enum
checks. -/
def validateInsightsResponse (d : InsightsData) : Except String Unit := do
  let sr ← requireField d.salaryRanges "Missing required field: salaryRanges"
  let _ ← requireField d.growthRate "Missing required field: growthRate"
  let dl ← requireField d.demandLevel "Missing required field: demandLevel"
  let ts ← requireField d.topSkills "Missing required field: topSkills"
  let mo ← requireField d.marketOutlook "Missing required field: marketOutlook"
  let _ ← requireField d.keyTrends "Missing required field: keyTrends"
  let _ ← requireField d.recommendedSkills "Missing required field: recommendedSkills"
  if sr.length < 3 then
    .error "Invalid salaryRanges: must be array with at least 3 items"
  else if ts.length < 5 then
    .error "Invalid topSkills: must be array with at least 5 items"
  else if dl ∉ ["HIGH", "MEDIUM", "LOW"] then
    .error "Invalid demandLevel: must be HIGH, MEDIUM, or LOW"
  else if mo ∉ ["POSITIVE", "NEUTRAL", "NEGATIVE"] then
    .error "Invalid marketOutlook: must be POSITIVE, NEUTRAL, or NEGATIVE"
  else .ok ()

/-- The cron job's `validateInsights` (dashboard.js 685-718): the same
checks with slightly different message texts.  (Its `industry` argument
only appears in the not-an-object message, which typing discharges.) -/
def validateInsights (d : InsightsData) : Except String Unit := do
  let sr ← requireField d.salaryRanges "Missing required field: salaryRanges"
  let _ ← requireField d.growthRate "Missing required field: growthRate"
  let dl ← requireField d.demandLevel "Missing required field: demandLevel"
  let ts ← requireField d.topSkills "Missing required field: topSkills"
  let mo ← requireField d.marketOutlook "Missing required field: marketOutlook"
  let _ ← requireField d.keyTrends "Missing required field: keyTrends"
  let _ ← requireField d.recommendedSkills "Missing required field: recommendedSkills"
  if sr.length < 3 then
    .error "salaryRanges must be an array with at least 3 items"
  else if ts.length < 5 then
    .error "topSkills must be an array with at least 5 items"
  else if dl ∉ ["HIGH", "MEDIUM", "LOW"] then
    .error "demandLevel must be HIGH, MEDIUM, or LOW"
  else if mo ∉ ["POSITIVE", "NEUTRAL", "NEGATIVE"] then
    .error "marketOutlook must be POSITIVE, NEUTRAL, or NEGATIVE"
  else .ok ()

/-- The acceptance conditions of the insight validators: all 7 fields
present, `salaryRanges.length ≥ 3`, `topSkills.length ≥ 5`, and the two
enum memberships. -/
def insightsAccepted (d : InsightsData) : Prop :=
  (∃ sr, d.salaryRanges = some sr ∧ 3 ≤ sr.length) ∧
  d.growthRate ≠ none ∧
  (∃ dl, d.demandLevel = some dl ∧ dl ∈ ["HIGH", "MEDIUM", "LOW"]) ∧
  (∃ ts, d.topSkills = some ts ∧ 5 ≤ ts.length) ∧
  (∃ mo, d.marketOutlook = some mo ∧ mo ∈ ["POSITIVE", "NEUTRAL", "NEGATIVE"]) ∧
  d.keyTrends ≠ none ∧ d.recommendedSkills ≠ none

/-- Every message either validator can emit names the missing or invalid
field. -/
def insightsErrorMessages : List String :=
  ["Missing required field: salaryRanges", "Missing required field: growthRate",
   "Missing required field: demandLevel", "Missing required field: topSkills",
   "Missing required field: marketOutlook", "Missing required field: keyTrends",
   "Missing required field: recommendedSkills",
   "Invalid salaryRanges: must be array with at least 3 items",
   "Invalid topSkills: must be array with at least 5 items",
   "Invalid demandLevel: must be HIGH, MEDIUM, or LOW",
   "Invalid marketOutlook: must be POSITIVE, NEUTRAL, or NEGATIVE",
   "salaryRanges must be an array with at least 3 items",
   "topSkills must be an array with at least 5 items",
   "demandLevel must be HIGH, MEDIUM, or LOW",
   "marketOutlook must be POSITIVE, NEUTRAL, or NEGATIVE"]

set_option maxHeartbeats 1000000 in
theorem validateInsightsResponse_ok_iff (d : InsightsData) :
    validateInsightsResponse d = .ok () ↔ insightsAccepted d := by
  obtain ⟨sr, gr, dl, ts, mo, kt, rs⟩ := d
  cases sr <;> cases gr <;> cases dl <;> cases ts <;> cases mo <;> cases kt <;> cases rs <;>
    simp only [validateInsightsResponse, insightsAccepted, requireField, bind, Except.bind] <;>
    first
      | (simp; done)
      | (split_ifs <;> simp_all <;> omega)

set_option maxHeartbeats 1000000 in
theorem validateInsights_ok_iff (d : InsightsData) :
    validateInsights d = .ok () ↔ insightsAccepted d := by
  obtain ⟨sr, gr, dl, ts, mo, kt, rs⟩ := d
  cases sr <;> cases gr <;> cases dl <;> cases ts <;> cases mo <;> cases kt <;> cases rs <;>
    simp only [validateInsights, insightsAccepted, requireField, bind, Except.bind] <;>
    first
      | (simp; done)
      | (split_ifs <;> simp_all <;> omega)

set_option maxHeartbeats 1000000 in
theorem validateInsightsResponse_error_mem (d : InsightsData) (m : String)
    (h : validateInsightsResponse d = .error m) : m ∈ insightsErrorMessages := by
  obtain ⟨sr, gr, dl, ts, mo, kt, rs⟩ := d
  unfold insightsErrorMessages
  cases sr <;> cases gr <;> cases dl <;> cases ts <;> cases mo <;> cases kt <;> cases rs <;>
    simp only [validateInsightsResponse, requireField, bind, Except.bind] at h <;>
    first
      | (cases h; simp)
      | (split_ifs at h <;> cases h <;> simp)

/-! ## Insight cache manager (dashboard.js `shouldRefreshInsights` 129-132,
`getIndustryInsights` 138-184, `refreshIndustryInsights` 186-225,
`updateUser` 249-319).

A validated insight payload (the seven generated fields) and the stored
`IndustryInsight` record.  The generation pipeline
(`generateAIInsights`) is abstracted as an `Except String Insights`
argument; the record store is the `Option InsightRecord` held by the
user. -/

structure Insights where
  salaryRanges : List SalaryRange
  growthRate : Int
  demandLevel : String
  topSkills : List String
  marketOutlook : String
  keyTrends : List String
  recommendedSkills : List String
deriving DecidableEq

structure InsightRecord where
  industry : String
  salaryRanges : List SalaryRange
  growthRate : Int
  demandLevel : String
  topSkills : List String
  marketOutlook : String
  keyTrends : List String
  recommendedSkills : List String
  lastUpdated : Nat
  nextUpdate : Nat
deriving DecidableEq

structure UserRec where
  industry : String
  industryInsight : Option InsightRecord
deriving DecidableEq

/-- `shouldRefreshInsights` (dashboard.js 129-132): refresh when no record
exists or `new Date() > new Date(insight.nextUpdate)` (strict). -/
def shouldRefreshInsights (now : Nat) : Option InsightRecord → Bool
  | none => true
  | some insight => decide (now > insight.nextUpdate)

/-- `getNextUpdateDate()` (dashboard.js 134-136). -/
def getNextUpdateDate (now : Nat) : Nat := now + CACHE_DURATION_MS

/-- The `db.industryInsight.update` payload used by `getIndustryInsights`
(154-167) and `refreshIndustryInsights` (195-208): the seven insight
fields plus `nextUpdate`.  `lastUpdated` is not part of the payload and
is therefore unchanged. -/
def applyInsightsUpdate (r : InsightRecord) (ins : Insights) (now : Nat) : InsightRecord :=
  { r with
    salaryRanges := ins.salaryRanges
    growthRate := ins.growthRate
    demandLevel := ins.demandLevel
    topSkills := ins.topSkills
    marketOutlook := ins.marketOutlook
    keyTrends := ins.keyTrends
    recommendedSkills := ins.recommendedSkills
    nextUpdate := getNextUpdateDate now }

/-- The `db.industryInsight.create` payload of the same two functions
(170-183, 211-224).  The source does not set `lastUpdated`; the store
defaults a fresh record's `lastUpdated` to the creation time, which is
how it is modelled here. -/
def createInsightRecord (industry : String) (ins : Insights) (now : Nat) : InsightRecord :=
  { industry := industry
    salaryRanges := ins.salaryRanges
    growthRate := ins.growthRate
    demandLevel := ins.demandLevel
    topSkills := ins.topSkills
    marketOutlook := ins.marketOutlook
    keyTrends := ins.keyTrends
    recommendedSkills := ins.recommendedSkills
    lastUpdated := now
    nextUpdate := getNextUpdateDate now }

/-- `getIndustryInsights` (dashboard.js 138-184).  The second component of
a successful result counts the generation calls performed (`0` on a cache
hit, `1` otherwise); a generation failure propagates. -/
def getIndustryInsights (now : Nat) (user : UserRec)
    (gen : Except String Insights) : Except String (InsightRecord × Nat) :=
  if jsTrim user.industry = "" then
    .error "User industry not set. Please update your profile."
  else
    match user.industryInsight with
    | some r =>
      if shouldRefreshInsights now (some r) then
        match gen with
        | .error e => .error e
        | .ok ins => .ok (applyInsightsUpdate r ins now, 1)
      else
        .ok (r, 0)
    | none =>
      match gen with
      | .error e => .error e
      | .ok ins => .ok (createInsightRecord user.industry ins now, 1)

/-- `refreshIndustryInsights` (dashboard.js 186-225): always generates
(no staleness check) and then updates or creates the record. -/
def refreshIndustryInsights (now : Nat) (user : UserRec)
    (gen : Except String Insights) : Except String (InsightRecord × Nat) :=
  if jsTrim user.industry = "" then
    .error "User industry not set. Please update your profile."
  else
    match gen with
    | .error e => .error e
    | .ok ins =>
      match user.industryInsight with
      | some r => .ok (applyInsightsUpdate r ins now, 1)
      | none => .ok (createInsightRecord user.industry ins now, 1)

/-- The placeholder record `updateUser` creates when no insight exists for
the industry (dashboard.js 264-276): neutral defaults and
`nextUpdate = now + 7 days`.  As in `createInsightRecord`, the store
defaults `lastUpdated` to the creation time. -/
def placeholderInsightRecord (industry : String) (now : Nat) : InsightRecord :=
  { industry := industry
    salaryRanges := []
    growthRate := 0
    demandLevel := "MEDIUM"
    topSkills := []
    marketOutlook := "NEUTRAL"
    keyTrends := []
    recommendedSkills := []
    lastUpdated := now
    nextUpdate := now + 7 * 24 * 60 * 60 * 1000 }

/-- The insight-ensuring step of `updateUser` (dashboard.js 257-291).
Returns the stored record after the step and whether the step succeeded.
When the record is absent a placeholder is created first; the best-effort
AI refresh then either overwrites the seven insight fields
(`data: insights`, touching neither timestamp) or fails, in which case
the failure is swallowed and the placeholder kept — the step always
succeeds. -/
def updateUserEnsureInsight (now : Nat) (industry : String)
    (existing : Option InsightRecord) (gen : Except String Insights) :
    Option InsightRecord × Bool :=
  match existing with
  | some r => (some r, true)
  | none =>
    let placeholder := placeholderInsightRecord industry now
    match gen with
    | .ok ins =>
      (some { placeholder with
        salaryRanges := ins.salaryRanges
        growthRate := ins.growthRate
        demandLevel := ins.demandLevel
        topSkills := ins.topSkills
        marketOutlook := ins.marketOutlook
        keyTrends := ins.keyTrends
        recommendedSkills := ins.recommendedSkills }, true)
    | .error _ => (some placeholder, true)

/-! ## Batch refresh scheduler (dashboard.js `generateIndustryInsights`,
lines 797-930).

Each industry is processed sequentially: blank names are skipped,
generation runs through `generateWithRetry`, a success is upserted with
`lastUpdated = now` and `nextUpdate = now + 7 days`, and a failure is
recorded as a `stats.failures` entry and the loop continues.  The
inter-industry rate-limit sleep does not affect the data flow and is not
modelled. -/

structure FailureEntry where
  industry : String
  error : String
  timestamp : Nat
deriving DecidableEq

structure BatchStats where
  total : Nat
  successful : Nat
  failed : Nat
  skipped : Nat
  failures : List FailureEntry
deriving DecidableEq

/-- The `db.industryInsight.upsert` payload of the cron job
(dashboard.js 856-882): all seven insight fields plus
`lastUpdated: new Date()` and `nextUpdate: now + 7 days` (both branches
of the upsert write the same fields). -/
def batchUpsert (now : Nat) (industry : String) (ins : Insights) : InsightRecord :=
  { industry := industry
    salaryRanges := ins.salaryRanges
    growthRate := ins.growthRate
    demandLevel := ins.demandLevel
    topSkills := ins.topSkills
    marketOutlook := ins.marketOutlook
    keyTrends := ins.keyTrends
    recommendedSkills := ins.recommendedSkills
    lastUpdated := now
    nextUpdate := now + CACHE_DURATION_MS }

/-- The `for (let i = 0; i < industries.length; i++)` loop of the cron
job (dashboard.js 836-903), accumulating the run stats and the list of
upserted records. -/
def runBatchAux (gen : String → Except String Insights) (now : Nat) :
    List String → BatchStats → List InsightRecord → BatchStats × List InsightRecord
  | [], stats, ups => (stats, ups)
  | industry :: rest, stats, ups =>
    if jsTrim industry = "" then
      runBatchAux gen now rest { stats with skipped := stats.skipped + 1 } ups
    else
      match gen industry with
      | .ok ins =>
        runBatchAux gen now rest { stats with successful := stats.successful + 1 }
          (ups ++ [batchUpsert now industry ins])
      | .error e =>
        runBatchAux gen now rest
          { stats with
            failed := stats.failed + 1
            failures := stats.failures ++ [⟨industry, e, now⟩] } ups

/-- The cron job `generateIndustryInsights` (dashboard.js 797-930) run on
a fetched list of industries: `stats.total` is the fetched count, each
industry generates through `generateWithRetry` on its own attempt
stream. -/
def generateIndustryInsights (attempts : String → Nat → Except String Insights)
    (now : Nat) (industries : List String) : BatchStats × List InsightRecord :=
  runBatchAux (fun industry => (generateWithRetry (attempts industry)).1) now industries
    { total := industries.length, successful := 0, failed := 0, skipped := 0, failures := [] }
    []

/-! ## Rate limiter and quota-limited operations
(cover-letter.js `generateCoverLetter` 22-109, interview.js
`generateQuiz` 52-141, dashboard.js `improveWithAI` 523-579). -/

/-- `DAILY_LIMIT = 10` (cover-letter.js line 8). -/
def DAILY_LIMIT : Nat := 10

/-- `DAILY_QUIZ_LIMIT = 5` (interview.js line 8). -/
def DAILY_QUIZ_LIMIT : Nat := 5

/-- `HOURLY_AI_LIMIT = 20` (dashboard.js line 342). -/
def HOURLY_AI_LIMIT : Nat := 20

structure CoverLetterRec where
  id : Nat
  userId : Nat
  content : String
  jobDescription : String
  companyName : String
  jobTitle : String
  status : String
  createdAt : Nat
deriving DecidableEq

structure AssessmentRec where
  userId : Nat
  createdAt : Nat
deriving DecidableEq

structure ResumeRec where
  userId : Nat
  content : String
  createdAt : Nat
  updatedAt : Nat
deriving DecidableEq

/-- `db.coverLetter.count({ userId, createdAt: { gte: today } })`
(cover-letter.js 33-38): creation timestamps at or after local midnight,
with no condition on `status`. -/
def countCoverLettersToday (db : List CoverLetterRec) (uid midnight : Nat) : Nat :=
  (db.filter (fun r => decide (r.userId = uid ∧ midnight ≤ r.createdAt))).length

/-- `db.assessment.count({ userId, createdAt: { gte: today } })`
(interview.js 59-64). -/
def countAssessmentsToday (db : List AssessmentRec) (uid midnight : Nat) : Nat :=
  (db.filter (fun r => decide (r.userId = uid ∧ midnight ≤ r.createdAt))).length

/-- `db.resume.findMany({ userId, updatedAt: { gte: oneHourAgo } }).length`
(dashboard.js 553-558): resume records filtered by their last-update
timestamp, not by creation time. -/
def countRecentResumeUpdates (db : List ResumeRec) (uid now : Nat) : Nat :=
  (db.filter (fun r => decide (r.userId = uid ∧ now - HOUR_MS ≤ r.updatedAt))).length

/-- `db.coverLetter.update` keyed by id (cover-letter.js 91-97, 102-105). -/
def updateCoverLetter (db : List CoverLetterRec) (rid : Nat)
    (f : CoverLetterRec → CoverLetterRec) : List CoverLetterRec :=
  db.map (fun r => if r.id = rid then f r else r)

/-- `generateCoverLetter` (cover-letter.js 22-109).  `gen` is the raw
provider response; the result carries the updated store and the number
of provider calls.  A placeholder row (`content: ""`,
`status: "pending"`) is created before the provider call; on success it
is updated to `completed` with the content; on failure it is updated to
`failed` and kept while the wrapped error is thrown. -/
def generateCoverLetter (uid newId now midnight : Nat)
    (jobTitle companyName jobDescription : String)
    (gen : Except String String) (db : List CoverLetterRec) :
    Except String CoverLetterRec × List CoverLetterRec × Nat :=
  if jobTitle = "" ∨ companyName = "" ∨ jobDescription = "" then
    (.error "Missing required fields: jobTitle, companyName, and jobDescription", db, 0)
  else if DAILY_LIMIT ≤ countCoverLettersToday db uid midnight then
    (.error ("Daily limit of " ++ toString DAILY_LIMIT
      ++ " cover letters reached. Try again tomorrow."), db, 0)
  else
    let placeholder : CoverLetterRec :=
      { id := newId, userId := uid, content := "", jobDescription := jobDescription
        companyName := companyName, jobTitle := jobTitle, status := "pending"
        createdAt := now }
    let db1 := db ++ [placeholder]
    match gen with
    | .ok raw =>
      let content := jsTrim raw
      if content = "" then
        (.error "Failed to generate cover letter: Empty response from AI",
         updateCoverLetter db1 newId (fun r => { r with status := "failed" }), 1)
      else
        (.ok { placeholder with content := content, status := "completed" },
         updateCoverLetter db1 newId
           (fun r => { r with content := content, status := "completed" }), 1)
    | .error e =>
      (.error ("Failed to generate cover letter: " ++ e),
       updateCoverLetter db1 newId (fun r => { r with status := "failed" }), 1)

/-- `generateQuiz` (interview.js 52-141) with the generation-and-parse
step abstracted as `gen`; the second component counts provider calls.
The quota check runs before the industry check, as in the source. -/
def generateQuiz (uid midnight : Nat) (industry : String)
    (assessments : List AssessmentRec) (gen : Except String Quiz) :
    Except String (List QuizQuestion) × Nat :=
  if DAILY_QUIZ_LIMIT ≤ countAssessmentsToday assessments uid midnight then
    (.error ("Daily quiz limit reached (" ++ toString DAILY_QUIZ_LIMIT
      ++ " per day). Try again tomorrow."), 0)
  else if industry = "" then
    (.error "Please set your industry in your profile before generating quizzes", 0)
  else
    match gen with
    | .error e => (.error ("Failed to generate quiz questions: " ++ e), 1)
    | .ok quiz =>
      match validateQuizResponse quiz with
      | .ok _ => (.ok quiz.questions, 1)
      | .error m => (.error ("Failed to generate quiz questions: " ++ m), 1)

/-- `improveWithAI` (dashboard.js 523-579) up to and including the rate
limit and the call to `callGeminiWithRetry` (abstracted as `gen`, whose
`ok` value is the trimmed non-empty response); the second component
counts provider calls. -/
def improveWithAI (uid now : Nat) (current ty userIndustry : String)
    (resumes : List ResumeRec) (gen : Except String String) :
    Except String String × Nat :=
  if jsTrim current = "" then
    (.error "Current content is required and cannot be empty", 0)
  else if 5000 < current.length then
    (.error "Content is too long (max 5000 characters per section)", 0)
  else if ty = "" then
    (.error "Content type is required", 0)
  else if jsToLower ty ∉ ["summary", "experience", "skill", "project", "education"] then
    (.error "Invalid type. Must be one of: summary, experience, skill, project, education", 0)
  else if userIndustry = "" then
    (.error "Please set your industry in your profile before using AI improvements", 0)
  else if HOURLY_AI_LIMIT ≤ countRecentResumeUpdates resumes uid now then
    (.error ("Rate limit reached (" ++ toString HOURLY_AI_LIMIT
      ++ " improvements per hour). Please try again later."), 0)
  else
    match gen with
    | .ok t =>
      if t.length < 10 then
        (.error "Failed to improve resume: AI returned suspiciously short content", 1)
      else (.ok t, 1)
    | .error e => (.error ("Failed to improve resume: " ++ e), 1)

/-- The resume-improvement quota check as the specification describes it:
count the subject's artifacts by creation timestamp within the trailing
hour (inclusive lower bound), quota exceeded at `HOURLY_AI_LIMIT`.  This
definition follows the spec's words, for comparison with
`countRecentResumeUpdates` used by the code. -/
def specImproveQuotaExceeded (db : List ResumeRec) (uid now : Nat) : Bool :=
  HOURLY_AI_LIMIT ≤
    (db.filter (fun r => decide (r.userId = uid ∧ now - HOUR_MS ≤ r.createdAt))).length

/-! ## Response sanitizer (dashboard.js 106-110, interview.js 120-124)

```text
const cleanedText = text
  .replace(/¬```(?:json)?\n?/g, "")
  .replace(/¬```\n?/g, "")
  .trim();
```
(`¬` added above only to keep this comment fence-free; the patterns are a
triple backtick, an optional literal `json`, an optional newline.)

The sanitizer is modelled on `List Char`.  A global `replace` with an
empty replacement is a left-to-right scan: at each position, if the
pattern matches (greedily: the mandatory triple backtick, then the
optional tag, then the optional newline), the matched characters are
dropped and the scan resumes after them; otherwise the character is kept
and the scan moves on one character. -/

/-- The backtick character. -/
def btick : Char := Char.ofNat 96

/-- Greedy optional `json` tag of the first pattern. -/
def dropJsonTag (l : List Char) : List Char :=
  if l.take 4 = ['j', 's', 'o', 'n'] then l.drop 4 else l

/-- Greedy optional newline of both patterns. -/
def dropNl (l : List Char) : List Char :=
  if l.head? = some '\n' then l.tail else l

theorem dropJsonTag_length_le (l : List Char) : (dropJsonTag l).length ≤ l.length := by
  unfold dropJsonTag
  split <;> simp

theorem dropNl_length_le (l : List Char) : (dropNl l).length ≤ l.length := by
  unfold dropNl
  split <;> simp [List.length_tail]

/-- First `replace`: pattern "triple backtick, optional `json`, optional
newline", all occurrences, empty replacement. -/
def stripFencesA (l : List Char) : List Char :=
  match l with
  | [] => []
  | c :: rest =>
    if c = btick ∧ rest.take 2 = [btick, btick] then
      stripFencesA (dropNl (dropJsonTag (rest.drop 2)))
    else
      c :: stripFencesA rest
termination_by l.length
decreasing_by
  · simp only [List.length_cons]
    calc (dropNl (dropJsonTag (rest.drop 2))).length
        ≤ (dropJsonTag (rest.drop 2)).length := dropNl_length_le _
      _ ≤ (rest.drop 2).length := dropJsonTag_length_le _
      _ ≤ rest.length := by simp
      _ < rest.length + 1 := Nat.lt_succ_self _
  · simp [Nat.lt_succ_self]

/-- Second `replace`: pattern "triple backtick, optional newline", all
occurrences, empty replacement. -/
def stripFencesB (l : List Char) : List Char :=
  match l with
  | [] => []
  | c :: rest =>
    if c = btick ∧ rest.take 2 = [btick, btick] then
      stripFencesB (dropNl (rest.drop 2))
    else
      c :: stripFencesB rest
termination_by l.length
decreasing_by
  · simp only [List.length_cons]
    calc (dropNl (rest.drop 2)).length
        ≤ (rest.drop 2).length := dropNl_length_le _
      _ ≤ rest.length := by simp
      _ < rest.length + 1 := Nat.lt_succ_self _
  · simp [Nat.lt_succ_self]

/-- The full sanitizer (dashboard.js 107-110, interview.js 121-124). -/
def sanitizeText (l : List Char) : List Char :=
  trimWs (stripFencesB (stripFencesA l))

/-! # Claims -/

/-- C1: for every attempt function that fails on every call, the retry
executor with `maxRetries = n` calls the attempt function exactly `n + 1`
times, sleeps between consecutive attempts for `baseDelay` times the
1-indexed attempt number (base 1000 ms for `callGeminiWithRetry`, 2000 ms
for the cron's `generateWithRetry`; no delay after the final attempt),
and fails with an error wrapping the last underlying error's message. -/
theorem retry_executor_bound {α : Type} (attemptFn : Nat → Except String α)
    (e : Nat → String) (n : Nat) (h : ∀ i, attemptFn i = .error (e i)) :
    callGeminiWithRetry attemptFn n =
      (.error ("AI service unavailable after " ++ toString (n + 1) ++ " attempts: " ++ e n),
        n + 1, (List.range n).map (fun k => 1000 * (k + 1))) ∧
    generateWithRetry attemptFn =
      (.error ("Failed after 3 attempts: " ++ e 2), 3, [2000, 4000]) := by
  constructor
  · rw [callGeminiWithRetry, retryAux_allFail attemptFn e h 1000 _ n 0]
    simp
  · rw [generateWithRetry, MAX_RETRIES, retryAux_allFail attemptFn e h 2000 _ 2 0]
    have hs : "Failed after " ++ toString (2 + 1) ++ " attempts: " =
        "Failed after 3 attempts: " := by decide
    simp only [Nat.zero_add, hs, String.append_assoc]
    simp [List.range_succ]

theorem retry_executor_bound_witness :
    callGeminiWithRetry (fun _ => (.error "boom" : Except String Unit)) 2 =
      (.error "AI service unavailable after 3 attempts: boom", 3, [1000, 2000]) ∧
    generateWithRetry (fun _ => (.error "boom" : Except String Unit)) =
      (.error "Failed after 3 attempts: boom", 3, [2000, 4000]) := by
  have h := retry_executor_bound (fun _ => (.error "boom" : Except String Unit))
    (fun _ => "boom") 2 (fun i => rfl)
  refine ⟨?_, ?_⟩
  · rw [h.1]
    simp [List.range_succ]
    decide
  · exact h.2

/-- C2: in a batch run over three industries where the second fails
generation on every attempt and the others succeed on their first
attempt, the run report has `successful = 2`, `failed = 1`, the failure
entry carries the industry, the (wrapped) error message and the
timestamp, and the third industry is still processed and upserted. -/
theorem batch_isolation (attempts : String → Nat → Except String Insights)
    (a b c : String) (insA insC : Insights) (e : Nat → String) (now : Nat)
    (hat : jsTrim a ≠ "") (hbt : jsTrim b ≠ "") (hct : jsTrim c ≠ "")
    (ha : attempts a 0 = .ok insA)
    (hb : ∀ i, attempts b i = .error (e i))
    (hc : attempts c 0 = .ok insC) :
    generateIndustryInsights attempts now [a, b, c] =
      ({ total := 3, successful := 2, failed := 1, skipped := 0,
         failures := [⟨b, "Failed after 3 attempts: " ++ e 2, now⟩] },
       [batchUpsert now a insA, batchUpsert now c insC]) := by
  have ga : (generateWithRetry (attempts a)).1 = .ok insA := by
    rw [generateWithRetry, MAX_RETRIES, retryAux_firstOk (attempts a) insA 2000 0 _ ha 2]
  have gc : (generateWithRetry (attempts c)).1 = .ok insC := by
    rw [generateWithRetry, MAX_RETRIES, retryAux_firstOk (attempts c) insC 2000 0 _ hc 2]
  have gb : (generateWithRetry (attempts b)).1 =
      .error ("Failed after 3 attempts: " ++ e 2) := by
    rw [generateWithRetry, MAX_RETRIES, retryAux_allFail (attempts b) e hb 2000 _ 2 0]
    have hs : "Failed after " ++ toString (2 + 1) ++ " attempts: " =
        "Failed after 3 attempts: " := by decide
    simp only [Nat.zero_add, hs]
  simp [generateIndustryInsights, runBatchAux, hat, hbt, hct, ga, gb, gc]

theorem batch_isolation_witness :
    generateIndustryInsights
      (fun industry => fun _ =>
        if industry = "Oil" then (.error "boom" : Except String Insights)
        else .ok ⟨[], 0, "HIGH", [], "POSITIVE", [], []⟩)
      999 ["Tech", "Oil", "Law"] =
      ({ total := 3, successful := 2, failed := 1, skipped := 0,
         failures := [⟨"Oil", "Failed after 3 attempts: " ++ "boom", 999⟩] },
       [batchUpsert 999 "Tech" ⟨[], 0, "HIGH", [], "POSITIVE", [], []⟩,
        batchUpsert 999 "Law" ⟨[], 0, "HIGH", [], "POSITIVE", [], []⟩]) := by
  exact batch_isolation _ "Tech" "Oil" "Law" _ _ (fun _ => "boom") 999
    (by decide) (by decide) (by decide) (by decide) (fun i => rfl) (by decide)

/-- C3: a cached record is classified stale exactly when `now` is after
its `nextUpdate` and fresh when `now` is at or before it, and on a fresh
record the lazy getter returns the record unchanged with zero generation
calls. -/
theorem staleness_classification (now : Nat) (user : UserRec)
    (gen : Except String Insights) (r : InsightRecord)
    (hind : jsTrim user.industry ≠ "") (hr : user.industryInsight = some r) :
    (shouldRefreshInsights now (some r) = true ↔ r.nextUpdate < now) ∧
    (now ≤ r.nextUpdate → getIndustryInsights now user gen = .ok (r, 0)) := by
  constructor
  · simp [shouldRefreshInsights]
  · intro hfresh
    have hnot : ¬ (r.nextUpdate < now) := by omega
    simp [getIndustryInsights, hind, hr, shouldRefreshInsights, hnot]

theorem staleness_classification_witness :
    getIndustryInsights 50
      { industry := "Tech",
        industryInsight := some
          { industry := "Tech", salaryRanges := [], growthRate := 0,
            demandLevel := "MEDIUM", topSkills := [], marketOutlook := "NEUTRAL",
            keyTrends := [], recommendedSkills := [], lastUpdated := 0,
            nextUpdate := 100 } }
      (.error "provider down") =
      .ok ({ industry := "Tech", salaryRanges := [], growthRate := 0,
             demandLevel := "MEDIUM", topSkills := [], marketOutlook := "NEUTRAL",
             keyTrends := [], recommendedSkills := [], lastUpdated := 0,
             nextUpdate := 100 }, 0) :=
  (staleness_classification 50
    { industry := "Tech",
      industryInsight := some
        { industry := "Tech", salaryRanges := [], growthRate := 0,
          demandLevel := "MEDIUM", topSkills := [], marketOutlook := "NEUTRAL",
          keyTrends := [], recommendedSkills := [], lastUpdated := 0,
          nextUpdate := 100 } }
    (.error "provider down") _ (by decide) rfl).2 (by decide)

/-- A stale stored record used to exercise the explicit-refresh path. -/
def rStaleSample : InsightRecord :=
  { industry := "Tech", salaryRanges := [], growthRate := 0, demandLevel := "MEDIUM",
    topSkills := [], marketOutlook := "NEUTRAL", keyTrends := [], recommendedSkills := [],
    lastUpdated := 0, nextUpdate := 604800000 }

/-- A sample generated payload. -/
def insSample : Insights :=
  { salaryRanges := [], growthRate := 1, demandLevel := "HIGH", topSkills := [],
    marketOutlook := "POSITIVE", keyTrends := [], recommendedSkills := [] }

/-- C4 counterexample: a successful explicit refresh of a stale record
(`nextUpdate` in the past) through `refreshIndustryInsights` leaves
`lastUpdated` unchanged — it does not become the current time, and
`nextUpdate = lastUpdated + 7 days` does not hold for the stored
result. -/
theorem refresh_invariant_counterexample :
    rStaleSample.nextUpdate < 1000000000 ∧
    refreshIndustryInsights 1000000000
        { industry := "Tech", industryInsight := some rStaleSample }
        (.ok insSample) =
      .ok (applyInsightsUpdate rStaleSample insSample 1000000000, 1) ∧
    (applyInsightsUpdate rStaleSample insSample 1000000000).lastUpdated ≠ 1000000000 ∧
    (applyInsightsUpdate rStaleSample insSample 1000000000).nextUpdate ≠
      (applyInsightsUpdate rStaleSample insSample 1000000000).lastUpdated
        + CACHE_DURATION_MS := by
  decide

/-- C4 (amended): the batch-scheduler write path sets
`lastUpdated = now` and `nextUpdate = now + 7 days`, so
`nextUpdate = lastUpdated + 7 days` holds for every record it upserts;
the interactive `refreshIndustryInsights` write path on an existing stale
record sets only `nextUpdate = now + 7 days` and leaves `lastUpdated`
unchanged. -/
theorem insight_write_paths (now : Nat) :
    (∀ industry ins,
      (batchUpsert now industry ins).lastUpdated = now ∧
      (batchUpsert now industry ins).nextUpdate =
        (batchUpsert now industry ins).lastUpdated + CACHE_DURATION_MS) ∧
    (∀ (user : UserRec) r ins, jsTrim user.industry ≠ "" →
      user.industryInsight = some r → r.nextUpdate < now →
      refreshIndustryInsights now user (.ok ins) =
        .ok (applyInsightsUpdate r ins now, 1) ∧
      (applyInsightsUpdate r ins now).nextUpdate = now + CACHE_DURATION_MS ∧
      (applyInsightsUpdate r ins now).lastUpdated = r.lastUpdated) := by
  constructor
  · intro industry ins
    simp [batchUpsert]
  · intro user r ins hind hr hstale
    refine ⟨?_, rfl, rfl⟩
    simp [refreshIndustryInsights, hind, hr]

theorem insight_write_paths_witness :
    (batchUpsert 1000000000 "Tech" insSample).lastUpdated = 1000000000 ∧
    refreshIndustryInsights 1000000000
        { industry := "Tech", industryInsight := some rStaleSample }
        (.ok insSample) =
      .ok (applyInsightsUpdate rStaleSample insSample 1000000000, 1) ∧
    (applyInsightsUpdate rStaleSample insSample 1000000000).lastUpdated =
      rStaleSample.lastUpdated :=
  ⟨((insight_write_paths 1000000000).1 "Tech" insSample).1,
   ((insight_write_paths 1000000000).2
      { industry := "Tech", industryInsight := some rStaleSample } rStaleSample insSample
      (by decide) rfl (by decide)).1,
   ((insight_write_paths 1000000000).2
      { industry := "Tech", industryInsight := some rStaleSample } rStaleSample insSample
      (by decide) rfl (by decide)).2.2⟩

/-- C8: when no record exists for the industry, `updateUser` first
creates a placeholder with neutral defaults and
`nextUpdate = now + 7 days`; a failure of the subsequent best-effort
generation is swallowed, the placeholder is kept, and the step succeeds.
By contrast, an explicit refresh of a stale record propagates the
generation failure to the caller. -/
theorem absent_placeholder_swallow (now : Nat) (industry e : String) :
    updateUserEnsureInsight now industry none (.error e) =
      (some { industry := industry, salaryRanges := [], growthRate := 0,
              demandLevel := "MEDIUM", topSkills := [], marketOutlook := "NEUTRAL",
              keyTrends := [], recommendedSkills := [], lastUpdated := now,
              nextUpdate := now + 7 * 24 * 60 * 60 * 1000 }, true) ∧
    (∀ (user : UserRec) r, jsTrim user.industry ≠ "" →
      user.industryInsight = some r → r.nextUpdate < now →
      refreshIndustryInsights now user (.error e) = .error e) := by
  constructor
  · rfl
  · intro user r hind hr hstale
    simp [refreshIndustryInsights, hind]

theorem absent_placeholder_swallow_witness :
    updateUserEnsureInsight 1000000000 "Tech" none (.error "down") =
      (some { industry := "Tech", salaryRanges := [], growthRate := 0,
              demandLevel := "MEDIUM", topSkills := [], marketOutlook := "NEUTRAL",
              keyTrends := [], recommendedSkills := [], lastUpdated := 1000000000,
              nextUpdate := 1000000000 + 7 * 24 * 60 * 60 * 1000 }, true) ∧
    refreshIndustryInsights 1000000000
        { industry := "Tech", industryInsight := some rStaleSample }
        (.error "down") = .error "down" :=
  ⟨(absent_placeholder_swallow 1000000000 "Tech" "down").1,
   (absent_placeholder_swallow 1000000000 "Tech" "down").2
     { industry := "Tech", industryInsight := some rStaleSample } rStaleSample
     (by decide) rfl (by decide)⟩

theorem checkQuestion_error_shape (i : Nat) (q : QuizQuestion) (m : String)
    (h : checkQuestion i q = .error m) :
    ∃ s, m = "Question " ++ toString (i + 1) ++ ": " ++ s := by
  unfold checkQuestion at h
  split_ifs at h <;> cases h <;> exact ⟨_, rfl⟩

/-- C6: the quiz validator accepts exactly the parsed objects whose
`questions` list has exactly 10 items each passing every per-question
clause; in particular every accepted quiz has 10 questions, 4 options per
question, `correctAnswer` an exact member of `options`, and non-empty
question and explanation texts.  A wrong question count fails with the
count-naming message, and every per-question failure is raised on an
actually offending question with a message naming its 1-based index. -/
theorem quiz_validator_sound (quiz : Quiz) :
    (validateQuizResponse quiz = .ok () ↔
      quiz.questions.length = 10 ∧ ∀ q ∈ quiz.questions, questionOk q) ∧
    (validateQuizResponse quiz = .ok () →
      quiz.questions.length = 10 ∧ ∀ q ∈ quiz.questions,
        q.question ≠ "" ∧ q.options.length = 4 ∧ q.correctAnswer ∈ q.options ∧
          q.explanation ≠ "") ∧
    (quiz.questions.length ≠ 10 →
      validateQuizResponse quiz =
        .error ("Invalid quiz format: expected 10 questions, got "
          ++ toString quiz.questions.length)) ∧
    (∀ m, validateQuizResponse quiz = .error m → quiz.questions.length = 10 →
      ∃ i q, quiz.questions[i]? = some q ∧ ¬ questionOk q ∧
        ∃ s, m = "Question " ++ toString (i + 1) ++ ": " ++ s) := by
  have hiff : validateQuizResponse quiz = .ok () ↔
      quiz.questions.length = 10 ∧ ∀ q ∈ quiz.questions, questionOk q := by
    unfold validateQuizResponse
    split_ifs with hlen
    · simp [hlen]
    · rw [validateQuizQuestions_ok_iff]
      exact ⟨fun h => ⟨by omega, h⟩, fun h => h.2⟩
  refine ⟨hiff, ?_, ?_, ?_⟩
  · intro h
    obtain ⟨hlen, hall⟩ := hiff.mp h
    exact ⟨hlen, fun q hq => by
      obtain ⟨h1, h2, h3, h4, h5⟩ := hall q hq
      exact ⟨h1, h2, h4, h5⟩⟩
  · intro hlen
    simp [validateQuizResponse, hlen]
  · intro m hm hlen
    rw [validateQuizResponse, if_neg (by omega)] at hm
    obtain ⟨j, q, hj, hcj, hbad⟩ := validateQuizQuestions_error quiz.questions 0 m hm
    obtain ⟨s, hs⟩ := checkQuestion_error_shape (0 + j) q m hcj
    exact ⟨j, q, hj, hbad, s, by simpa using hs⟩

theorem quiz_validator_sound_witness :
    (Quiz.mk (List.replicate 10
      { question := "q", options := ["a", "b", "c", "d"],
        correctAnswer := "a", explanation := "e" })).questions.length = 10 ∧
    ∀ q ∈ (Quiz.mk (List.replicate 10
      { question := "q", options := ["a", "b", "c", "d"],
        correctAnswer := "a", explanation := "e" })).questions,
      q.question ≠ "" ∧ q.options.length = 4 ∧ q.correctAnswer ∈ q.options ∧
        q.explanation ≠ "" :=
  (quiz_validator_sound _).2.1 (by decide)

/-- C7: both industry-insight validators accept a parsed object exactly
when all 7 named fields are present, `salaryRanges` has length ≥ 3,
`topSkills` has length ≥ 5, `demandLevel` is one of HIGH/MEDIUM/LOW and
`marketOutlook` one of POSITIVE/NEUTRAL/NEGATIVE; every rejection
carries one of the messages naming the missing or invalid field, and a
missing `salaryRanges` is reported as such. -/
theorem insights_validator_characterization (d : InsightsData) :
    (validateInsightsResponse d = .ok () ↔ insightsAccepted d) ∧
    (validateInsights d = .ok () ↔ insightsAccepted d) ∧
    (∀ m, validateInsightsResponse d = .error m → m ∈ insightsErrorMessages) ∧
    (d.salaryRanges = none →
      validateInsightsResponse d = .error "Missing required field: salaryRanges") := by
  refine ⟨validateInsightsResponse_ok_iff d, validateInsights_ok_iff d,
    fun m h => validateInsightsResponse_error_mem d m h, fun h => ?_⟩
  simp [validateInsightsResponse, requireField, h, bind, Except.bind]

theorem insights_validator_witness :
    validateInsightsResponse ⟨none, none, none, none, none, none, none⟩ =
      .error "Missing required field: salaryRanges" ∧
    "Missing required field: salaryRanges" ∈ insightsErrorMessages := by
  have hd := insights_validator_characterization ⟨none, none, none, none, none, none, none⟩
  exact ⟨hd.2.2.2 rfl, hd.2.2.1 _ (hd.2.2.2 rfl)⟩

/-- C5 counterexample: the resume-improvement operation's rate limit is
not computed from creation timestamps.  On a store of 20 resume rows
created at time 0 but updated within the trailing hour, the operation
fails with the rate-limit error even though zero of the user's records
were created within the trailing hour, so the spec's creation-window
check (`specImproveQuotaExceeded`) is not exceeded. -/
theorem quota_creation_window_counterexample :
    improveWithAI 1 7200000 "text" "summary" "Tech"
        (List.replicate 20 { userId := 1, content := "r", createdAt := 0, updatedAt := 7200000 })
        (.ok "a sufficiently long improvement") =
      (.error "Rate limit reached (20 improvements per hour). Please try again later.", 0) ∧
    specImproveQuotaExceeded
        (List.replicate 20 { userId := 1, content := "r", createdAt := 0, updatedAt := 7200000 })
        1 7200000 = false := by
  decide

/-- C5 (amended): cover-letter generation (max 10, window starting at
local midnight) and quiz generation (max 5, same window) count the
subject's artifacts by creation timestamp with an inclusive lower bound
and fail with an error carrying the configured maximum exactly when the
count has reached it, proceeding to one generation call otherwise; the
resume-improvement operation instead counts the user's resume records by
last-update timestamp within the trailing hour (inclusive) against a
maximum of 20 — improvements themselves are never persisted. -/
theorem quota_checks (uid newId now midnight : Nat)
    (jt cn jd current ty industry : String)
    (cls : List CoverLetterRec) (asmts : List AssessmentRec) (resumes : List ResumeRec)
    (genCL genR : Except String String) (genQ : Except String Quiz)
    (hjt : jt ≠ "") (hcn : cn ≠ "") (hjd : jd ≠ "")
    (hcur : jsTrim current ≠ "") (hclen : current.length ≤ 5000) (hty : ty ≠ "")
    (htyv : jsToLower ty ∈ ["summary", "experience", "skill", "project", "education"])
    (hind : industry ≠ "") :
    (DAILY_LIMIT ≤ countCoverLettersToday cls uid midnight →
      generateCoverLetter uid newId now midnight jt cn jd genCL cls =
        (.error "Daily limit of 10 cover letters reached. Try again tomorrow.", cls, 0)) ∧
    (countCoverLettersToday cls uid midnight < DAILY_LIMIT →
      (generateCoverLetter uid newId now midnight jt cn jd genCL cls).2.2 = 1) ∧
    (DAILY_QUIZ_LIMIT ≤ countAssessmentsToday asmts uid midnight →
      generateQuiz uid midnight industry asmts genQ =
        (.error "Daily quiz limit reached (5 per day). Try again tomorrow.", 0)) ∧
    (countAssessmentsToday asmts uid midnight < DAILY_QUIZ_LIMIT →
      (generateQuiz uid midnight industry asmts genQ).2 = 1) ∧
    (HOURLY_AI_LIMIT ≤ countRecentResumeUpdates resumes uid now →
      improveWithAI uid now current ty industry resumes genR =
        (.error "Rate limit reached (20 improvements per hour). Please try again later.", 0)) ∧
    (countRecentResumeUpdates resumes uid now < HOURLY_AI_LIMIT →
      (improveWithAI uid now current ty industry resumes genR).2 = 1) := by
  have hmsg1 : "Daily limit of " ++ toString DAILY_LIMIT
      ++ " cover letters reached. Try again tomorrow." =
      "Daily limit of 10 cover letters reached. Try again tomorrow." := by decide
  have hmsg2 : "Daily quiz limit reached (" ++ toString DAILY_QUIZ_LIMIT
      ++ " per day). Try again tomorrow." =
      "Daily quiz limit reached (5 per day). Try again tomorrow." := by decide
  have hmsg3 : "Rate limit reached (" ++ toString HOURLY_AI_LIMIT
      ++ " improvements per hour). Please try again later." =
      "Rate limit reached (20 improvements per hour). Please try again later." := by decide
  refine ⟨?_, ?_, ?_, ?_, ?_, ?_⟩
  · intro h
    simp [generateCoverLetter, hjt, hcn, hjd, h, hmsg1]
  · intro h
    have hnot : ¬ DAILY_LIMIT ≤ countCoverLettersToday cls uid midnight := by omega
    cases genCL with
    | ok raw =>
      by_cases hr : jsTrim raw = "" <;>
        simp [generateCoverLetter, hjt, hcn, hjd, hnot, hr]
    | error e =>
      simp [generateCoverLetter, hjt, hcn, hjd, hnot]
  · intro h
    simp [generateQuiz, h, hmsg2]
  · intro h
    have hnot : ¬ DAILY_QUIZ_LIMIT ≤ countAssessmentsToday asmts uid midnight := by omega
    cases genQ with
    | ok quiz =>
      cases hv : validateQuizResponse quiz <;>
        simp [generateQuiz, hnot, hind, hv]
    | error e =>
      simp [generateQuiz, hnot, hind]
  · intro h
    have hnotlen : ¬ 5000 < current.length := by omega
    simp [improveWithAI, hcur, hnotlen, hty, htyv, hind, h, hmsg3]
  · intro h
    have hnot : ¬ HOURLY_AI_LIMIT ≤ countRecentResumeUpdates resumes uid now := by omega
    have hnotlen : ¬ 5000 < current.length := by omega
    cases genR with
    | ok t =>
      by_cases ht : t.length < 10 <;>
        simp [improveWithAI, hcur, hnotlen, hty, htyv, hind, hnot, ht]
    | error e =>
      simp [improveWithAI, hcur, hnotlen, hty, htyv, hind, hnot]

/-- A completed cover-letter row created at time 60, for the quota
witness. -/
def clSample : CoverLetterRec :=
  { id := 0, userId := 1, content := "", jobDescription := "",
    companyName := "", jobTitle := "", status := "completed", createdAt := 60 }

theorem quota_checks_witness :
    generateCoverLetter 1 7 100 50 "T" "C" "D" (.error "x") (List.replicate 10 clSample) =
      (.error "Daily limit of 10 cover letters reached. Try again tomorrow.",
       List.replicate 10 clSample, 0) ∧
    (generateQuiz 1 50 "Tech" [] (.error "x")).2 = 1 :=
  ⟨(quota_checks 1 7 100 50 "T" "C" "D" "text" "summary" "Tech"
      (List.replicate 10 clSample) [] [] (.error "x") (.error "x") (.error "x")
      (by decide) (by decide) (by decide) (by decide) (by decide) (by decide)
      (by decide) (by decide)).1 (by decide),
   (quota_checks 1 7 100 50 "T" "C" "D" "text" "summary" "Tech"
      (List.replicate 10 clSample) [] [] (.error "x") (.error "x") (.error "x")
      (by decide) (by decide) (by decide) (by decide) (by decide) (by decide)
      (by decide) (by decide)).2.2.2.1 (by decide)⟩

theorem updateCoverLetter_append_fresh (db : List CoverLetterRec)
    (p : CoverLetterRec) (f : CoverLetterRec → CoverLetterRec)
    (hfresh : ∀ r ∈ db, r.id ≠ p.id) :
    updateCoverLetter (db ++ [p]) p.id f = db ++ [f p] := by
  unfold updateCoverLetter
  rw [List.map_append]
  congr 1
  · calc db.map (fun r => if r.id = p.id then f r else r)
        = db.map id := List.map_congr_left (fun r hr => if_neg (hfresh r hr))
      _ = db := List.map_id db
  · simp

theorem countCoverLettersToday_append (db : List CoverLetterRec)
    (r : CoverLetterRec) (uid midnight : Nat)
    (h1 : r.userId = uid) (h2 : midnight ≤ r.createdAt) :
    countCoverLettersToday (db ++ [r]) uid midnight =
      countCoverLettersToday db uid midnight + 1 := by
  unfold countCoverLettersToday
  rw [List.filter_append]
  simp [h1, h2]

/-- C10: a cover-letter generation that passes input validation and the
daily-quota check persists a `pending` placeholder with empty content
before the provider call; on success that record becomes `completed`
with the generated content, and on failure it becomes `failed` and is
kept while the wrapped error is raised — and the kept `failed` record
counts toward later daily-limit checks, which count every record created
since midnight regardless of status. -/
theorem cover_letter_lifecycle (uid newId now midnight : Nat)
    (jt cn jd : String) (db : List CoverLetterRec) (gen : Except String String)
    (hjt : jt ≠ "") (hcn : cn ≠ "") (hjd : jd ≠ "")
    (hquota : countCoverLettersToday db uid midnight < DAILY_LIMIT)
    (hmid : midnight ≤ now)
    (hfresh : ∀ r ∈ db, r.id ≠ newId) :
    (∀ raw, gen = .ok raw → jsTrim raw ≠ "" →
      generateCoverLetter uid newId now midnight jt cn jd gen db =
        (.ok { id := newId, userId := uid, content := jsTrim raw,
               jobDescription := jd, companyName := cn, jobTitle := jt,
               status := "completed", createdAt := now },
         db ++ [{ id := newId, userId := uid, content := jsTrim raw,
                  jobDescription := jd, companyName := cn, jobTitle := jt,
                  status := "completed", createdAt := now }],
         1)) ∧
    (∀ e, gen = .error e →
      generateCoverLetter uid newId now midnight jt cn jd gen db =
        (.error ("Failed to generate cover letter: " ++ e),
         db ++ [{ id := newId, userId := uid, content := "",
                  jobDescription := jd, companyName := cn, jobTitle := jt,
                  status := "failed", createdAt := now }],
         1) ∧
      countCoverLettersToday
          (db ++ [{ id := newId, userId := uid, content := "",
                    jobDescription := jd, companyName := cn, jobTitle := jt,
                    status := "failed", createdAt := now }]) uid midnight =
        countCoverLettersToday db uid midnight + 1) := by
  have hnot : ¬ DAILY_LIMIT ≤ countCoverLettersToday db uid midnight := by omega
  have hinvalid : ¬ (jt = "" ∨ cn = "" ∨ jd = "") := by simp [hjt, hcn, hjd]
  constructor
  · intro raw hg htrim
    subst hg
    simp only [generateCoverLetter, if_neg hinvalid, if_neg hnot, if_neg htrim]
    rw [updateCoverLetter_append_fresh db _ _ hfresh]
  · intro e hg
    subst hg
    refine ⟨?_, countCoverLettersToday_append db _ uid midnight rfl hmid⟩
    simp only [generateCoverLetter, if_neg hinvalid, if_neg hnot]
    rw [updateCoverLetter_append_fresh db _ _ hfresh]

theorem cover_letter_lifecycle_witness :
    generateCoverLetter 1 7 100 50 "T" "C" "D" (.error "down") [] =
      (.error ("Failed to generate cover letter: " ++ "down"),
       [{ id := 7, userId := 1, content := "", jobDescription := "D",
          companyName := "C", jobTitle := "T", status := "failed",
          createdAt := 100 }],
       1) ∧
    countCoverLettersToday
        [{ id := 7, userId := 1, content := "", jobDescription := "D",
           companyName := "C", jobTitle := "T", status := "failed",
           createdAt := 100 }] 1 50 =
      countCoverLettersToday [] 1 50 + 1 := by
  have h := (cover_letter_lifecycle 1 7 100 50 "T" "C" "D" [] (.error "down")
    (by decide) (by decide) (by decide) (by decide) (by decide)
    (by simp)).2 "down" rfl
  simpa using h

/-! ### Sanitizer lemmas

The round-trip argument: stripping fences commutes with prepending
backtick-free text, the opening fence reduces away in one match, and a
trailing `newline-fence-whitespace` suffix only ever contributes
whitespace to the output, which the final trim removes. -/

theorem ws_ne_btick {c : Char} (h : isWsChar c = true) : c ≠ btick := by
  intro hc
  subst hc
  exact absurd h (by decide)

theorem ws_ne_j {c : Char} (h : isWsChar c = true) : c ≠ 'j' := by
  intro hc
  subst hc
  exact absurd h (by decide)

theorem stripFencesA_nil : stripFencesA [] = [] := by
  simp [stripFencesA]

theorem stripFencesA_fence (rest : List Char) (h : rest.take 2 = [btick, btick]) :
    stripFencesA (btick :: rest) =
      stripFencesA (dropNl (dropJsonTag (rest.drop 2))) := by
  rw [stripFencesA]
  simp [h]

theorem stripFencesA_cons (c : Char) (rest : List Char)
    (h : ¬ (c = btick ∧ rest.take 2 = [btick, btick])) :
    stripFencesA (c :: rest) = c :: stripFencesA rest := by
  rw [stripFencesA]
  simp [h]

theorem stripFencesB_nil : stripFencesB [] = [] := by
  simp [stripFencesB]

theorem stripFencesB_fence (rest : List Char) (h : rest.take 2 = [btick, btick]) :
    stripFencesB (btick :: rest) = stripFencesB (dropNl (rest.drop 2)) := by
  rw [stripFencesB]
  simp [h]

theorem stripFencesB_cons (c : Char) (rest : List Char)
    (h : ¬ (c = btick ∧ rest.take 2 = [btick, btick])) :
    stripFencesB (c :: rest) = c :: stripFencesB rest := by
  rw [stripFencesB]
  simp [h]

theorem stripFencesA_no_btick (l : List Char) (h : ∀ c ∈ l, c ≠ btick) :
    stripFencesA l = l := by
  induction l with
  | nil => exact stripFencesA_nil
  | cons c rest ih =>
    rw [stripFencesA_cons c rest (fun hc => h c (by simp) hc.1)]
    rw [ih (fun d hd => h d (by simp [hd]))]

theorem stripFencesA_append_left (w s : List Char) (h : ∀ c ∈ w, c ≠ btick) :
    stripFencesA (w ++ s) = w ++ stripFencesA s := by
  induction w with
  | nil => simp
  | cons c rest ih =>
    rw [List.cons_append, stripFencesA_cons c (rest ++ s) (fun hc => h c (by simp) hc.1)]
    rw [ih (fun d hd => h d (by simp [hd]))]
    rfl

theorem stripFencesB_no_btick (l : List Char) (h : ∀ c ∈ l, c ≠ btick) :
    stripFencesB l = l := by
  induction l with
  | nil => exact stripFencesB_nil
  | cons c rest ih =>
    rw [stripFencesB_cons c rest (fun hc => h c (by simp) hc.1)]
    rw [ih (fun d hd => h d (by simp [hd]))]

theorem stripFencesB_append_left (w s : List Char) (h : ∀ c ∈ w, c ≠ btick) :
    stripFencesB (w ++ s) = w ++ stripFencesB s := by
  induction w with
  | nil => simp
  | cons c rest ih =>
    rw [List.cons_append, stripFencesB_cons c (rest ++ s) (fun hc => h c (by simp) hc.1)]
    rw [ih (fun d hd => h d (by simp [hd]))]
    rfl

/-- Scanning past the opening fence: a leading "triple backtick, json,
newline" is one full match of the first pattern, and the scan resumes at
`s`. -/
theorem stripFencesA_open (s : List Char) :
    stripFencesA (btick :: btick :: btick :: 'j' :: 's' :: 'o' :: 'n' :: '\n' :: s) =
      stripFencesA s := by
  rw [stripFencesA_fence _ (by simp [List.take])]
  simp [dropJsonTag, dropNl, List.take]

theorem dropJsonTag_ws (ws : List Char) (h : ∀ c ∈ ws, isWsChar c = true) :
    dropJsonTag ws = ws := by
  unfold dropJsonTag
  split
  next hj =>
    exfalso
    have hjmem : 'j' ∈ ws := by
      have h2 : 'j' ∈ ws.take 4 := by rw [hj]; simp
      exact List.take_subset 4 ws h2
    exact absurd (h 'j' hjmem) (by decide)
  next hj => rfl

theorem allWs_dropNl (l : List Char) (h : ∀ c ∈ l, isWsChar c = true) :
    ∀ c ∈ dropNl l, isWsChar c = true := by
  unfold dropNl
  split
  · exact fun c hc => h c (List.tail_subset l hc)
  · exact h

/-- The optional-tag step never crosses into a suffix that starts with a
newline: the tag `json` cannot be completed by `'\n'`. -/
theorem dropJsonTag_append_nl (r2 t2 : List Char) :
    dropJsonTag (r2 ++ '\n' :: t2) = dropJsonTag r2 ++ '\n' :: t2 := by
  by_cases h4 : 4 ≤ r2.length
  · unfold dropJsonTag
    rw [List.take_append_of_le_length h4]
    by_cases hj : r2.take 4 = ['j', 's', 'o', 'n'] <;>
      simp [hj, List.drop_append_of_le_length h4]
  · rcases r2 with _ | ⟨a, _ | ⟨b, _ | ⟨c, _ | ⟨d, r⟩⟩⟩⟩
    · simp [dropJsonTag, List.take_succ_cons]
    · simp [dropJsonTag, List.take_succ_cons]
    · simp [dropJsonTag, List.take_succ_cons]
    · simp [dropJsonTag, List.take_succ_cons]
    · exfalso
      exact h4 (by simp)

theorem dropNl_append_ne_nil (r4 t : List Char) (h : r4 ≠ []) :
    dropNl (r4 ++ t) = dropNl r4 ++ t := by
  rcases r4 with _ | ⟨a, r⟩
  · exact absurd rfl h
  · by_cases ha : a = '\n' <;> simp [dropNl, ha]

theorem stripFencesA_fence_ws (ws : List Char) (hws : ∀ c ∈ ws, isWsChar c = true) :
    stripFencesA (btick :: btick :: btick :: ws) = dropNl ws := by
  rw [stripFencesA_fence (btick :: btick :: ws) (by simp [List.take_succ_cons])]
  simp only [List.drop_succ_cons, List.drop_zero]
  rw [dropJsonTag_ws ws hws]
  exact stripFencesA_no_btick _ (fun c hc => ws_ne_btick (allWs_dropNl ws hws c hc))

theorem stripFencesA_nl_fence_ws (ws : List Char) (hws : ∀ c ∈ ws, isWsChar c = true) :
    stripFencesA ('\n' :: btick :: btick :: btick :: ws) = '\n' :: dropNl ws := by
  rw [stripFencesA_cons _ _ (fun hc => absurd hc.1 (by decide))]
  rw [stripFencesA_fence_ws ws hws]

/-- A trailing `newline, closing fence, whitespace` suffix contributes
only whitespace to the output of the first pass, whatever precedes it. -/
theorem stripFencesA_suffix (ws : List Char) (hws : ∀ c ∈ ws, isWsChar c = true) :
    ∀ n (s : List Char), s.length ≤ n →
      ∃ z, stripFencesA (s ++ '\n' :: btick :: btick :: btick :: ws) =
        stripFencesA s ++ z ∧ ∀ c ∈ z, isWsChar c = true := by
  intro n
  induction n with
  | zero =>
    intro s hs
    have hnil : s = [] := List.length_eq_zero.mp (Nat.le_zero.mp hs)
    subst hnil
    refine ⟨'\n' :: dropNl ws, ?_, ?_⟩
    · rw [List.nil_append, stripFencesA_nil, List.nil_append]
      exact stripFencesA_nl_fence_ws ws hws
    · intro c hc
      rcases List.mem_cons.mp hc with hc1 | hc2
      · subst hc1; decide
      · exact allWs_dropNl ws hws c hc2
  | succ n ih =>
    intro s hs
    rcases s with _ | ⟨c, rest⟩
    · refine ⟨'\n' :: dropNl ws, ?_, ?_⟩
      · rw [List.nil_append, stripFencesA_nil, List.nil_append]
        exact stripFencesA_nl_fence_ws ws hws
      · intro c hc
        rcases List.mem_cons.mp hc with hc1 | hc2
        · subst hc1; decide
        · exact allWs_dropNl ws hws c hc2
    · have hrest : rest.length ≤ n := by
        simp only [List.length_cons] at hs
        omega
      by_cases hf : c = btick ∧ rest.take 2 = [btick, btick]
      · obtain ⟨hc, h2⟩ := hf
        subst hc
        have hlen2 : 2 ≤ rest.length := by
          have hlt := congrArg List.length h2
          simp [List.length_take] at hlt
          omega
        have htake : (rest ++ '\n' :: btick :: btick :: btick :: ws).take 2 =
            [btick, btick] := by
          rw [List.take_append_of_le_length hlen2, h2]
        rw [List.cons_append, stripFencesA_fence _ htake,
          List.drop_append_of_le_length hlen2, dropJsonTag_append_nl]
        rcases h4 : dropJsonTag (rest.drop 2) with _ | ⟨d, r5⟩
        · refine ⟨dropNl ws, ?_, allWs_dropNl ws hws⟩
          rw [List.nil_append, stripFencesA_fence rest h2, h4]
          have hdn : dropNl ('\n' :: btick :: btick :: btick :: ws) =
              btick :: btick :: btick :: ws := by simp [dropNl]
          rw [hdn, stripFencesA_fence_ws ws hws]
          simp [dropNl, stripFencesA_nil]
        · rw [← h4, dropNl_append_ne_nil _ _ (by rw [h4]; simp)]
          have hlen4 : (dropNl (dropJsonTag (rest.drop 2))).length ≤ n := by
            have l1 := dropNl_length_le (dropJsonTag (rest.drop 2))
            have l2 := dropJsonTag_length_le (rest.drop 2)
            have l3 : (rest.drop 2).length ≤ rest.length := by simp
            omega
          obtain ⟨z, hz, hzw⟩ := ih (dropNl (dropJsonTag (rest.drop 2))) hlen4
          refine ⟨z, ?_, hzw⟩
          rw [hz, stripFencesA_fence rest h2]
      · have hcomb : ¬ (c = btick ∧
            (rest ++ '\n' :: btick :: btick :: btick :: ws).take 2 = [btick, btick]) := by
          intro hcc
          obtain ⟨hc, htk⟩ := hcc
          apply hf
          refine ⟨hc, ?_⟩
          rcases rest with _ | ⟨a, _ | ⟨b, r⟩⟩
          · exfalso
            simp [List.take_succ_cons] at htk
            exact absurd htk (by decide)
          · exfalso
            simp [List.take_succ_cons] at htk
            exact absurd htk.2 (by decide)
          · rw [List.take_append_of_le_length (by simp)] at htk
            exact htk
        rw [List.cons_append, stripFencesA_cons c _ hcomb, stripFencesA_cons c rest hf]
        obtain ⟨z, hz, hzw⟩ := ih rest hrest
        refine ⟨z, ?_, hzw⟩
        rw [hz, List.cons_append]

/-- Appending all-whitespace text only ever contributes whitespace to
the output of the second pass. -/
theorem stripFencesB_append_ws (z : List Char) (hz : ∀ c ∈ z, isWsChar c = true) :
    ∀ n (m : List Char), m.length ≤ n →
      ∃ z2, stripFencesB (m ++ z) = stripFencesB m ++ z2 ∧
        ∀ c ∈ z2, isWsChar c = true := by
  have hzid : stripFencesB z = z :=
    stripFencesB_no_btick z (fun c hc => ws_ne_btick (hz c hc))
  intro n
  induction n with
  | zero =>
    intro m hm
    have hnil : m = [] := List.length_eq_zero.mp (Nat.le_zero.mp hm)
    subst hnil
    exact ⟨z, by simpa [stripFencesB_nil] using hzid, hz⟩
  | succ n ih =>
    intro m hm
    rcases m with _ | ⟨c, rest⟩
    · exact ⟨z, by simpa [stripFencesB_nil] using hzid, hz⟩
    · have hrest : rest.length ≤ n := by
        simp only [List.length_cons] at hm
        omega
      by_cases hf : c = btick ∧ rest.take 2 = [btick, btick]
      · obtain ⟨hc, h2⟩ := hf
        subst hc
        have hlen2 : 2 ≤ rest.length := by
          have hlt := congrArg List.length h2
          simp [List.length_take] at hlt
          omega
        have htake : (rest ++ z).take 2 = [btick, btick] := by
          rw [List.take_append_of_le_length hlen2, h2]
        rw [List.cons_append, stripFencesB_fence _ htake,
          List.drop_append_of_le_length hlen2]
        rcases h4 : rest.drop 2 with _ | ⟨d, r5⟩
        · refine ⟨dropNl z, ?_, allWs_dropNl z hz⟩
          rw [List.nil_append, stripFencesB_fence rest h2, h4]
          rw [stripFencesB_no_btick (dropNl z)
            (fun c hc => ws_ne_btick (allWs_dropNl z hz c hc))]
          simp [dropNl, stripFencesB_nil]
        · rw [← h4, dropNl_append_ne_nil _ _ (by rw [h4]; simp)]
          have hlen4 : (dropNl (rest.drop 2)).length ≤ n := by
            have l1 := dropNl_length_le (rest.drop 2)
            have l3 : (rest.drop 2).length ≤ rest.length := by simp
            omega
          obtain ⟨z2, hz2, hz2w⟩ := ih (dropNl (rest.drop 2)) hlen4
          refine ⟨z2, ?_, hz2w⟩
          rw [hz2, stripFencesB_fence rest h2]
      · have hcomb : ¬ (c = btick ∧ (rest ++ z).take 2 = [btick, btick]) := by
          intro hcc
          obtain ⟨hc, htk⟩ := hcc
          apply hf
          refine ⟨hc, ?_⟩
          rcases rest with _ | ⟨a, _ | ⟨b, r⟩⟩
          · exfalso
            have hbt : btick ∈ z := by
              have hmem : btick ∈ z.take 2 := by
                rw [List.nil_append] at htk
                rw [htk]; simp
              exact List.take_subset 2 z hmem
            exact absurd (hz btick hbt) (by decide)
          · exfalso
            simp [List.take_succ_cons] at htk
            have hbt : btick ∈ z := by
              have hmem : btick ∈ z.take 1 := by
                rw [htk.2]; simp
              exact List.take_subset 1 z hmem
            exact absurd (hz btick hbt) (by decide)
          · rw [List.take_append_of_le_length (by simp)] at htk
            exact htk
        rw [List.cons_append, stripFencesB_cons c _ hcomb, stripFencesB_cons c rest hf]
        obtain ⟨z2, hz2, hz2w⟩ := ih rest hrest
        refine ⟨z2, ?_, hz2w⟩
        rw [hz2, List.cons_append]

theorem dropWhile_append_of_all (p : Char → Bool) (w s : List Char)
    (hw : ∀ c ∈ w, p c = true) :
    (w ++ s).dropWhile p = s.dropWhile p := by
  induction w with
  | nil => simp
  | cons c rest ih =>
    rw [List.cons_append, List.dropWhile_cons, if_pos (hw c (by simp))]
    exact ih (fun d hd => hw d (by simp [hd]))

theorem dropWhile_append_of_ne_nil (p : Char → Bool) (s z : List Char)
    (hne : s.dropWhile p ≠ []) :
    (s ++ z).dropWhile p = s.dropWhile p ++ z := by
  induction s with
  | nil => simp at hne
  | cons c rest ih =>
    by_cases hp : p c = true
    · rw [List.cons_append, List.dropWhile_cons, if_pos hp, List.dropWhile_cons, if_pos hp]
      rw [List.dropWhile_cons, if_pos hp] at hne
      exact ih hne
    · rw [List.cons_append, List.dropWhile_cons, if_neg hp, List.dropWhile_cons, if_neg hp]
      rfl

theorem trimWs_append_left (w s : List Char) (hw : ∀ c ∈ w, isWsChar c = true) :
    trimWs (w ++ s) = trimWs s := by
  unfold trimWs
  rw [dropWhile_append_of_all isWsChar w s hw]

theorem trimWs_append_right (s z : List Char) (hz : ∀ c ∈ z, isWsChar c = true) :
    trimWs (s ++ z) = trimWs s := by
  by_cases hall : ∀ c ∈ s, isWsChar c = true
  · have h1 : (s ++ z).dropWhile isWsChar = [] := by
      rw [List.dropWhile_eq_nil_iff]
      intro c hc
      rcases List.mem_append.mp hc with h | h
      · exact hall c h
      · exact hz c h
    have h2 : s.dropWhile isWsChar = [] := by
      rw [List.dropWhile_eq_nil_iff]
      exact hall
    unfold trimWs
    rw [h1, h2]
  · have hne : s.dropWhile isWsChar ≠ [] := by
      rw [Ne, List.dropWhile_eq_nil_iff]
      exact hall
    unfold trimWs
    rw [dropWhile_append_of_ne_nil isWsChar s z hne, List.reverse_append]
    rw [dropWhile_append_of_all isWsChar z.reverse _
      (fun c hc => hz c (List.mem_reverse.mp hc))]

/-- Text `t` wrapped in a fenced ` ```json ` code block with surrounding
whitespace, as a generation provider might return it. -/
def wrapJsonFence (t w1 w2 : List Char) : List Char :=
  w1 ++ btick :: btick :: btick :: 'j' :: 's' :: 'o' :: 'n' :: '\n' ::
    (t ++ '\n' :: btick :: btick :: btick :: w2)

/-- C9: for every text `t`, sanitizing `t` wrapped in a ` ```json `
fenced block with surrounding whitespace yields exactly the same string
as sanitizing `t` unwrapped — so in particular both parse to the same
value under any parser. -/
theorem sanitizer_round_trip (t w1 w2 : List Char)
    (h1 : ∀ c ∈ w1, isWsChar c = true) (h2 : ∀ c ∈ w2, isWsChar c = true) :
    sanitizeText (wrapJsonFence t w1 w2) = sanitizeText t ∧
    ∀ {β : Type} (parse : List Char → β),
      parse (sanitizeText (wrapJsonFence t w1 w2)) = parse (sanitizeText t) := by
  have hw1 : ∀ c ∈ w1, c ≠ btick := fun c hc => ws_ne_btick (h1 c hc)
  obtain ⟨z, hz, hzw⟩ :=
    stripFencesA_suffix w2 h2 t.length t (Nat.le_refl _)
  have hA : stripFencesA (wrapJsonFence t w1 w2) = w1 ++ (stripFencesA t ++ z) := by
    unfold wrapJsonFence
    rw [stripFencesA_append_left w1 _ hw1, stripFencesA_open, hz]
  obtain ⟨z2, hz2, hz2w⟩ :=
    stripFencesB_append_ws z hzw (stripFencesA t).length (stripFencesA t) (Nat.le_refl _)
  have hmain : sanitizeText (wrapJsonFence t w1 w2) = sanitizeText t := by
    unfold sanitizeText
    rw [hA, stripFencesB_append_left w1 _ hw1, hz2]
    rw [trimWs_append_left w1 _ h1, trimWs_append_right _ z2 hz2w]
  exact ⟨hmain, fun parse => by rw [hmain]⟩

theorem sanitizer_round_trip_witness :
    sanitizeText (wrapJsonFence ['x'] [' '] ['\n', ' ']) = sanitizeText ['x'] :=
  (sanitizer_round_trip ['x'] [' '] ['\n', ' '] (by decide) (by decide)).1

end CareerLens
